import Mathlib

/-!
Verification of the SynthVision generation-session pipeline.

This file gives a shallow embedding of the pipeline core of the repository:
the prompt-expansion response handling (`services/api.ts`: `extractJson`,
`generateDiversePrompts`), the OpenAI-compatible synthesizer request
construction (`generateImageCustom`), and the orchestration loop
(`App.tsx`: `startGeneration`, `stopGeneration`, `addLog`,
`handleImageResult`), together with theorems about the claims of the
specification.

External effects (the LLM call, the image backend, the wall clock and the
shared abort flag trajectory) are modelled as an oracle record `RunEnv`;
the orchestrator itself is deterministic given the oracle, because the
source awaits each call sequentially.
-/

set_option linter.unusedVariables false

namespace SynthVision

/-! ### Session data model (types.ts) -/

/-- Session lifecycle states (`types.ts`, field `status`). -/
inductive Status where
  | idle
  | generating
  | completed
  | failed
  | stopped
  deriving DecidableEq, Repr, Inhabited

/-- One synthesis result (`types.ts`, interface `GeneratedImage`). -/
structure GeneratedImage where
  id : String
  url : String
  prompt : String
  timestamp : Nat
  tags : List String
  deriving DecidableEq, Repr

/-- One generation task (`types.ts`, interface `Session`). -/
structure Session where
  id : String
  name : String
  basePrompt : String
  referenceImages : List String
  generatedImages : List GeneratedImage
  generatedPrompts : List String
  createdAt : Nat
  status : Status
  totalTarget : Nat
  progress : Nat
  logs : List String
  deriving DecidableEq, Repr, Inhabited

/-- Synthesis backend kinds (`types.ts`, enum `ModelType`). -/
inductive ModelType where
  | GEMINI
  | OPENAI_COMPATIBLE
  deriving DecidableEq, Repr

/-- Backend configuration (`types.ts`, interface `ModelConfig`).
`endpoint` and `apiKey` are optional in the source (only used by the
OpenAI-compatible variant), which we render as `Option String`. -/
structure ModelConfig where
  id : String
  name : String
  type : ModelType
  endpoint : Option String
  apiKey : Option String
  modelId : String
  deriving DecidableEq, Repr

/-! ### JSON values and a model of `JSON.parse`

The prompt expander feeds the extracted substring of the model response to
the host `JSON.parse`.  We model JSON values and a recursive-descent
parser.  Numbers are modelled as integer numerals (no fraction/exponent
forms), which covers every input considered in this development. -/

inductive Json where
  | null : Json
  | bool : Bool → Json
  | num : Int → Json
  | str : String → Json
  | arr : List Json → Json
  | obj : List (String × Json) → Json

/-- Skip JSON insignificant whitespace. -/
def skipWs : List Char → List Char
  | [] => []
  | c :: cs =>
    if c == ' ' || c == '\n' || c == '\t' || c == '\r' then skipWs cs else c :: cs

/-- Value of a hexadecimal digit. -/
def hexVal (c : Char) : Option Nat :=
  if '0' ≤ c ∧ c ≤ '9' then some (c.toNat - '0'.toNat)
  else if 'a' ≤ c ∧ c ≤ 'f' then some (c.toNat - 'a'.toNat + 10)
  else if 'A' ≤ c ∧ c ≤ 'F' then some (c.toNat - 'A'.toNat + 10)
  else none

/-- Parse the body of a JSON string literal (after the opening quote),
handling the escape sequences of the JSON grammar. -/
def parseStringBody : Nat → List Char → List Char → Option (String × List Char)
  | 0, _, _ => none
  | _ + 1, _, [] => none
  | fuel + 1, acc, c :: cs =>
    if c == '"' then some (String.mk acc.reverse, cs)
    else if c == '\\' then
      match cs with
      | [] => none
      | e :: cs2 =>
        if e == '"' then parseStringBody fuel ('"' :: acc) cs2
        else if e == '\\' then parseStringBody fuel ('\\' :: acc) cs2
        else if e == '/' then parseStringBody fuel ('/' :: acc) cs2
        else if e == 'n' then parseStringBody fuel ('\n' :: acc) cs2
        else if e == 't' then parseStringBody fuel ('\t' :: acc) cs2
        else if e == 'r' then parseStringBody fuel ('\r' :: acc) cs2
        else if e == 'b' then parseStringBody fuel (Char.ofNat 8 :: acc) cs2
        else if e == 'f' then parseStringBody fuel (Char.ofNat 12 :: acc) cs2
        else if e == 'u' then
          match cs2 with
          | h1 :: h2 :: h3 :: h4 :: cs3 =>
            match hexVal h1, hexVal h2, hexVal h3, hexVal h4 with
            | some a, some b, some c3, some d =>
              parseStringBody fuel (Char.ofNat (((a * 16 + b) * 16 + c3) * 16 + d) :: acc) cs3
            | _, _, _, _ => none
          | _ => none
        else none
    else parseStringBody fuel (c :: acc) cs

/-- Consume a maximal run of decimal digits, accumulating their value. -/
def takeDigitsAux (acc : Nat) : List Char → Nat × List Char
  | [] => (acc, [])
  | c :: cs =>
    if c.isDigit then takeDigitsAux (acc * 10 + (c.toNat - '0'.toNat)) cs
    else (acc, c :: cs)

/-- Parse a JSON integer numeral (optional minus sign, one or more digits). -/
def parseNumber : List Char → Option (Json × List Char)
  | '-' :: cs =>
    match cs with
    | c :: _ =>
      if c.isDigit then
        let r := takeDigitsAux 0 cs
        some (Json.num (-(r.1 : Int)), r.2)
      else none
    | [] => none
  | cs =>
    match cs with
    | c :: _ =>
      if c.isDigit then
        let r := takeDigitsAux 0 cs
        some (Json.num (r.1 : Int), r.2)
      else none
    | [] => none

mutual

/-- Parse one JSON value.  `fuel` bounds the nesting/element recursion and
is instantiated with the input length, which always suffices. -/
def parseVal : Nat → List Char → Option (Json × List Char)
  | 0, _ => none
  | fuel + 1, cs =>
    match skipWs cs with
    | [] => none
    | c :: rest =>
      if c == '"' then
        match parseStringBody (rest.length + 1) [] rest with
        | some (s, r) => some (Json.str s, r)
        | none => none
      else if c == '[' then
        match skipWs rest with
        | ']' :: r2 => some (Json.arr [], r2)
        | r2 =>
          match parseArrItems fuel r2 with
          | some (xs, r3) => some (Json.arr xs, r3)
          | none => none
      else if c == '{' then
        match skipWs rest with
        | '}' :: r2 => some (Json.obj [], r2)
        | r2 =>
          match parseObjItems fuel r2 with
          | some (fs, r3) => some (Json.obj fs, r3)
          | none => none
      else if c == 't' then
        match rest with
        | 'r' :: 'u' :: 'e' :: r2 => some (Json.bool true, r2)
        | _ => none
      else if c == 'f' then
        match rest with
        | 'a' :: 'l' :: 's' :: 'e' :: r2 => some (Json.bool false, r2)
        | _ => none
      else if c == 'n' then
        match rest with
        | 'u' :: 'l' :: 'l' :: r2 => some (Json.null, r2)
        | _ => none
      else parseNumber (c :: rest)

/-- Parse the comma-separated items of a non-empty JSON array, up to and
including the closing bracket. -/
def parseArrItems : Nat → List Char → Option (List Json × List Char)
  | 0, _ => none
  | fuel + 1, cs =>
    match parseVal fuel cs with
    | none => none
    | some (x, r) =>
      match skipWs r with
      | ',' :: r2 =>
        match parseArrItems fuel r2 with
        | some (xs, r3) => some (x :: xs, r3)
        | none => none
      | ']' :: r2 => some ([x], r2)
      | _ => none

/-- Parse the members of a non-empty JSON object, up to and including the
closing brace. -/
def parseObjItems : Nat → List Char → Option (List (String × Json) × List Char)
  | 0, _ => none
  | fuel + 1, cs =>
    match skipWs cs with
    | '"' :: rest =>
      match parseStringBody (rest.length + 1) [] rest with
      | none => none
      | some (k, r) =>
        match skipWs r with
        | ':' :: r2 =>
          match parseVal fuel r2 with
          | none => none
          | some (v, r3) =>
            match skipWs r3 with
            | ',' :: r4 =>
              match parseObjItems fuel r4 with
              | some (fs, r5) => some ((k, v) :: fs, r5)
              | none => none
            | '}' :: r4 => some ([(k, v)], r4)
            | _ => none
        | _ => none
    | _ => none

end

/-- Model of the host `JSON.parse`: parse one value and require that only
whitespace remains; `none` corresponds to a thrown `SyntaxError`. -/
def parseJson (s : String) : Option Json :=
  let cs := s.toList
  match parseVal (cs.length + 1) cs with
  | some (j, rest) => if (skipWs rest).isEmpty then some j else none
  | none => none

/-- Property access `obj[key]` on a parsed JSON value.  `JSON.parse` keeps
the last of duplicate keys, hence the left fold. -/
def getField (j : Json) (key : String) : Option Json :=
  match j with
  | Json.obj fields => fields.foldl (fun acc kv => if kv.1 == key then some kv.2 else acc) none
  | _ => none

/-! ### `extractJson` (services/api.ts lines 15-18)

The source applies the JavaScript regular expression
`/\{[\s\S]*\}|\[[\s\S]*\]/` to the response text and returns the match, or
the whole text when there is no match.  Its semantics: the match starts at
the leftmost position carrying either a `{` with some later `}` (the first
alternative, tried first) or a `[` with some later `]`; the greedy `[\s\S]*`
then extends the match to the last such closing character of the text. -/

/-- Does the regex match start at the head of `cs`?  Returns the closing
character of the successful alternative. -/
def matchFromHere : List Char → Option Char
  | '{' :: rest => if rest.contains '}' then some '}' else none
  | '[' :: rest => if rest.contains ']' then some ']' else none
  | _ => none

/-- Leftmost position (with its closing character) at which the regex
`\{[\s\S]*\}|\[[\s\S]*\]` matches. -/
def findMatchStart : List Char → Option (Nat × Char)
  | [] => none
  | c :: rest =>
    match matchFromHere (c :: rest) with
    | some close => some (0, close)
    | none => (findMatchStart rest).map (fun p => (p.1 + 1, p.2))

/-- Index of the last occurrence of `c` in `cs`. -/
def lastIndexOfChar (cs : List Char) (c : Char) : Option Nat :=
  match cs with
  | [] => none
  | a :: rest =>
    match lastIndexOfChar rest c with
    | some i => some (i + 1)
    | none => if a == c then some 0 else none

/-- `extractJson` (services/api.ts lines 15-18): the regex match when one
exists, else the whole text. -/
def extractJson (text : String) : String :=
  let cs := text.toList
  match findMatchStart cs with
  | some p =>
    match lastIndexOfChar cs p.2 with
    | some j => String.mk ((cs.drop p.1).take (j + 1 - p.1))
    | none => text
  | none => text

/-! ### Prompt-expansion response handling (services/api.ts lines 91-102)

`generateDiversePrompts` awaits the LLM call and then processes
`response.text`: an empty text throws, otherwise the text goes through
`extractJson` and `JSON.parse`, and the parse result is validated only by
`!result.prompts || !Array.isArray(result.prompts)` — element types and
the `aspectRatio` field are not checked.  We model the post-network
processing as a function of the response text. -/

def generateDiversePromptsFromResponse (text : String) :
    Except String (List Json × Option Json) :=
  if text = "" then Except.error "Empty response from AI"
  else
    match parseJson (extractJson text) with
    | none => Except.error "JSON parse error"
    | some j =>
      match getField j "prompts" with
      | some (Json.arr xs) => Except.ok (xs, getField j "aspectRatio")
      | _ => Except.error "Invalid prompt array in response"

/-! ### OpenAI-compatible synthesizer (services/api.ts lines 165-192)

`generateImageCustom` validates the configuration, maps the aspect ratio
to a pixel size, and issues exactly one POST request.  We model the
function up to the point the request is issued: `Except.ok r` means the
single outbound request `r` is made; `Except.error` means the function
throws before any network call. -/

/-- JavaScript falsiness of an optional string field: absent or empty. -/
def optStringFalsy : Option String → Bool
  | none => true
  | some s => s.isEmpty

/-- The single outbound request of `generateImageCustom`. -/
structure ImagesRequest where
  url : String
  authBearer : String
  model : String
  prompt : String
  n : Nat
  size : String
  responseFormat : String
  deriving DecidableEq, Repr

/-- Aspect-ratio to pixel-size mapping (services/api.ts lines 175-177). -/
def sizeForAspectRatio (aspectRatio : String) : String :=
  let size := "1024x1024"
  let size := if aspectRatio = "16:9" then "1792x1024" else size
  let size := if aspectRatio = "9:16" then "1024x1792" else size
  size

/-- `generateImageCustom` up to its single `fetch` (services/api.ts lines
165-192): fail fast when `endpoint` or `apiKey` is falsy, otherwise build
the one request that is issued. -/
def generateImageCustomRequest (config : ModelConfig) (prompt : String)
    (aspectRatio : String) : Except String ImagesRequest :=
  if optStringFalsy config.endpoint || optStringFalsy config.apiKey then
    Except.error "Missing endpoint or API key for custom model"
  else
    Except.ok
      { url := config.endpoint.getD "" ++ "/v1/images/generations"
      , authBearer := "Bearer " ++ config.apiKey.getD ""
      , model := config.modelId
      , prompt := prompt
      , n := 1
      , size := sizeForAspectRatio aspectRatio
      , responseFormat := "b64_json" }

/-! ### The orchestrator (App.tsx lines 136-238)

`startGeneration` runs sequentially: it awaits the prompt expansion once,
then awaits one image-synthesis call per prompt.  All external
interactions are collected in an oracle `RunEnv`:

* `expansion` — the outcome of the awaited `generateDiversePrompts` call;
* `synth i` — the outcome of the awaited synthesis call for item `i`
  (the payload handed to `handleImageResult`, or the thrown error);
* `cancelPoint` — the trajectory of the shared `abortControllerRef`
  (App.tsx line 48): the run reads the flag at checkpoint 0 (line 179,
  after expansion), checkpoint `i + 1` (line 187, before item `i`), and
  once after the loop (line 227).  `some p` means the flag is observed
  true at every checkpoint `≥ p` and false before (the flag is only ever
  set during the run by a stop request and we model a run during which no
  concurrent `startGeneration` resets it); `none` means it stays false;
* `clock k` — the `toLocaleTimeString` stamp of the `k`-th log line of the
  run (the log is cleared when the run starts, so `k` is the current
  length of `logs`);
* `now i` — `Date.now()` during item `i` (used for the image id and
  timestamp).
-/

/-- Result of a successful `generateDiversePrompts` call. -/
structure ExpandResult where
  prompts : List String
  aspectRatio : String
  deriving DecidableEq, Repr

/-- Oracle for the external interactions of one run. -/
structure RunEnv where
  expansion : Except String ExpandResult
  synth : Nat → Except String String
  cancelPoint : Option Nat
  clock : Nat → String
  now : Nat → Nat

/-- Value of the shared abort flag at checkpoint `c`. -/
def cancelledAt (env : RunEnv) (c : Nat) : Bool :=
  match env.cancelPoint with
  | none => false
  | some p => decide (p ≤ c)

/-- A log line as built by `addLog` (App.tsx lines 136-143):
timestamp in brackets, then the message. -/
def logLine (env : RunEnv) (k : Nat) (msg : String) : String :=
  "[" ++ env.clock k ++ "] " ++ msg

/-- `addLog` (App.tsx lines 136-143): append one timestamped line. -/
def addLog (env : RunEnv) (s : Session) (msg : String) : Session :=
  { s with logs := s.logs ++ [logLine env s.logs.length msg] }

/-- The session holds a timestamped log line with message `msg`. -/
def HasLog (s : Session) (msg : String) : Prop :=
  ∃ ts, ("[" ++ ts ++ "] " ++ msg) ∈ s.logs

/-! Log messages of the run, verbatim from App.tsx. -/

def startMsg (n : Nat) : String :=
  "Starting generation task for " ++ toString n ++ " images."

def synthesizingMsg : String :=
  "Synthesizing diverse prompts & analyzing constraints..."

def fallbackMsg (e : String) : String :=
  "Warning: Prompt expansion failed: " ++ e ++ ". Using original prompt as fallback."

def variationsMsg (len : Nat) : String :=
  "Generated " ++ toString len ++ " unique variations."

def ratioMsg (r : String) : String :=
  "Target Aspect Ratio: " ++ r

def itemStartMsg (i len : Nat) : String :=
  "Generating image " ++ toString (i + 1) ++ "/" ++ toString len ++ "..."

def itemErrMsg (i : Nat) (e : String) : String :=
  "Error generating image " ++ toString (i + 1) ++ ": " ++ e

def completedMsg : String := "Task completed successfully."

def interruptedMsg : String := "User interrupted the generation process."

/-- The prompt list the run adopts (App.tsx lines 165-177): the expansion
result on success, `totalTarget` copies of the base prompt on failure. -/
def adoptedPrompts (s : Session) (env : RunEnv) : List String :=
  match env.expansion with
  | Except.ok r => r.prompts
  | Except.error _ => List.replicate s.totalTarget s.basePrompt

/-- The aspect ratio the run adopts (App.tsx lines 165-177): the expansion
result on success, the fixed default `"16:9"` on failure. -/
def adoptedRatio (env : RunEnv) : String :=
  match env.expansion with
  | Except.ok r => r.aspectRatio
  | Except.error _ => "16:9"

/-- `handleImageResult` (App.tsx lines 193-213): append the new image and
recompute progress as `15 + floor(85 * images / totalTarget)` using the
session's current image list and target. -/
def handleImageResult (env : RunEnv) (sessionId : String) (prompt : String)
    (i : Nat) (payload : String) (s : Session) : Session :=
  let newImage : GeneratedImage :=
    { id := sessionId ++ "_" ++ toString (env.now i) ++ "_" ++ toString i
    , url := payload
    , prompt := prompt
    , timestamp := env.now i
    , tags := [] }
  let updatedImages := s.generatedImages ++ [newImage]
  { s with generatedImages := updatedImages
         , progress := 15 + updatedImages.length * 85 / s.totalTarget }

/-- The per-item loop (App.tsx lines 186-225) over the indexed prompt
list, returning the session after the loop.  Each iteration: read the
abort flag (break when set), log the attempt, await synthesis, then either
apply `handleImageResult` or log the error and continue. -/
def generationLoop (env : RunEnv) (sessionId : String) (len : Nat) :
    List (Nat × String) → Session → Session
  | [], s => s
  | (i, prompt) :: rest, s =>
    if cancelledAt env (i + 1) then s
    else
      let s1 := addLog env s (itemStartMsg i len)
      match env.synth i with
      | Except.ok payload =>
        generationLoop env sessionId len rest (handleImageResult env sessionId prompt i payload s1)
      | Except.error e =>
        generationLoop env sessionId len rest (addLog env s1 (itemErrMsg i e))

/-- Trace variant of `generationLoop`: the session after every state
update the loop performs, in order. -/
def generationLoopTrace (env : RunEnv) (sessionId : String) (len : Nat) :
    List (Nat × String) → Session → List Session
  | [], _ => []
  | (i, prompt) :: rest, s =>
    if cancelledAt env (i + 1) then []
    else
      let s1 := addLog env s (itemStartMsg i len)
      match env.synth i with
      | Except.ok payload =>
        let s2 := handleImageResult env sessionId prompt i payload s1
        s1 :: s2 :: generationLoopTrace env sessionId len rest s2
      | Except.error e =>
        let s2 := addLog env s1 (itemErrMsg i e)
        s1 :: s2 :: generationLoopTrace env sessionId len rest s2

/-- The images the loop appends: one per item whose synthesis succeeds,
in item order, none for failed items, stopping at the first checkpoint
where the abort flag is observed. -/
def runImages (env : RunEnv) (sessionId : String) :
    List (Nat × String) → List GeneratedImage
  | [] => []
  | (i, prompt) :: rest =>
    if cancelledAt env (i + 1) then []
    else
      match env.synth i with
      | Except.ok payload =>
        { id := sessionId ++ "_" ++ toString (env.now i) ++ "_" ++ toString i
        , url := payload
        , prompt := prompt
        , timestamp := env.now i
        , tags := [] } :: runImages env sessionId rest
      | Except.error _ => runImages env sessionId rest

/-- The item indices for which the loop actually starts a synthesis call
(the body past the per-item abort check). -/
def runCalls (env : RunEnv) : List (Nat × String) → List Nat
  | [] => []
  | (i, _) :: rest =>
    if cancelledAt env (i + 1) then []
    else i :: runCalls env rest

/-- States of the run up to and including the expansion step (App.tsx
lines 155-177): status `generating` with progress 5 and a cleared log,
the two start log lines, and the fallback warning when expansion fails. -/
def preTrace (s : Session) (env : RunEnv) : List Session :=
  let s1 := { s with status := Status.generating, progress := 5, logs := [] }
  let s2 := addLog env s1 (startMsg s.totalTarget)
  let s3 := addLog env s2 synthesizingMsg
  match env.expansion with
  | Except.ok _ => [s1, s2, s3]
  | Except.error e => [s1, s2, s3, addLog env s3 (fallbackMsg e)]

/-- The session after the expansion step. -/
def expandedState (s : Session) (env : RunEnv) : Session :=
  (preTrace s env).getLastD s

/-- States of the prompt-adoption step (App.tsx lines 181-183): prompts
recorded with progress 15, then the two log lines. -/
def adoptTrace (s : Session) (env : RunEnv) : List Session :=
  let prompts := adoptedPrompts s env
  let s5 := { expandedState s env with generatedPrompts := prompts, progress := 15 }
  let s6 := addLog env s5 (variationsMsg prompts.length)
  [s5, s6, addLog env s6 (ratioMsg (adoptedRatio env))]

/-- The session after the prompt-adoption step. -/
def adoptedState (s : Session) (env : RunEnv) : Session :=
  (adoptTrace s env).getLastD s

/-- States of the post-loop step (App.tsx lines 227-232): when the abort
flag is clear, status `completed` at progress 100 plus the completion log
line; when it is set, status `stopped` only. -/
def postTrace (env : RunEnv) (len : Nat) (sL : Session) : List Session :=
  if cancelledAt env (len + 1) then [{ sL with status := Status.stopped }]
  else
    let sC := { sL with status := Status.completed, progress := 100 }
    [sC, addLog env sC completedMsg]

/-- One run of `startGeneration` (App.tsx lines 151-238) for a session
that exists: every state the run's own writes produce, in order.  When
the abort flag is observed at checkpoint 0 the run returns before the
adoption step (line 179). -/
def startGenerationTrace (s : Session) (env : RunEnv) : List Session :=
  if cancelledAt env 0 then preTrace s env
  else
    let prompts := adoptedPrompts s env
    let tr := generationLoopTrace env s.id prompts.length
      (List.enumFrom 0 prompts) (adoptedState s env)
    preTrace s env ++ adoptTrace s env ++ tr
      ++ postTrace env prompts.length (tr.getLastD (adoptedState s env))

/-- One run of `startGeneration`: the session after the run's own last
write. -/
def startGeneration (s : Session) (env : RunEnv) : Session :=
  if cancelledAt env 0 then expandedState s env
  else
    let prompts := adoptedPrompts s env
    let sL := generationLoop env s.id prompts.length
      (List.enumFrom 0 prompts) (adoptedState s env)
    if cancelledAt env (prompts.length + 1) then { sL with status := Status.stopped }
    else addLog env { sL with status := Status.completed, progress := 100 } completedMsg

/-- `stopGeneration`'s writes to the session (App.tsx lines 145-149):
status `stopped`, then the interruption log line.  (Its other effect,
setting the shared abort flag, is the `cancelPoint` of the oracle.) -/
def stopGeneration (env : RunEnv) (s : Session) : Session :=
  addLog env { s with status := Status.stopped } interruptedMsg

/-- Final session state of a run combined with a stop request when one was
issued (`cancelPoint = some p`).  The stop's own writes interleave with
the run's at flag-set time; status, images, progress and log membership of
the final state do not depend on the interleaving point, so we apply them
after the run's writes. -/
def sessionFinal (s : Session) (env : RunEnv) : Session :=
  match env.cancelPoint with
  | none => startGeneration s env
  | some _ => stopGeneration env (startGeneration s env)

/-- `stopGeneration` (App.tsx line 146) writes `true` to the single
component-level `abortControllerRef`; the value written does not depend on
which session the stop was issued for. -/
def stopFlagWrite (_sessionId : String) : Bool := true

/-! ### Basic lemmas about the model -/

lemma cancelledAt_none {env : RunEnv} (h : env.cancelPoint = none) (c : Nat) :
    cancelledAt env c = false := by
  simp [cancelledAt, h]

lemma cancelledAt_mono {env : RunEnv} {a b : Nat} (hab : a ≤ b)
    (h : cancelledAt env a = true) : cancelledAt env b = true := by
  cases hp : env.cancelPoint with
  | none => simp [cancelledAt, hp] at h
  | some p =>
    simp only [cancelledAt, hp, decide_eq_true_eq] at h ⊢
    omega

@[simp] lemma addLog_status (env : RunEnv) (s : Session) (m : String) :
    (addLog env s m).status = s.status := rfl

@[simp] lemma addLog_progress (env : RunEnv) (s : Session) (m : String) :
    (addLog env s m).progress = s.progress := rfl

@[simp] lemma addLog_generatedImages (env : RunEnv) (s : Session) (m : String) :
    (addLog env s m).generatedImages = s.generatedImages := rfl

@[simp] lemma addLog_generatedPrompts (env : RunEnv) (s : Session) (m : String) :
    (addLog env s m).generatedPrompts = s.generatedPrompts := rfl

@[simp] lemma addLog_totalTarget (env : RunEnv) (s : Session) (m : String) :
    (addLog env s m).totalTarget = s.totalTarget := rfl

@[simp] lemma addLog_id (env : RunEnv) (s : Session) (m : String) :
    (addLog env s m).id = s.id := rfl

@[simp] lemma addLog_logs (env : RunEnv) (s : Session) (m : String) :
    (addLog env s m).logs = s.logs ++ [logLine env s.logs.length m] := rfl

@[simp] lemma handleImageResult_status (env : RunEnv) (sid p : String) (i : Nat)
    (pl : String) (s : Session) :
    (handleImageResult env sid p i pl s).status = s.status := rfl

@[simp] lemma handleImageResult_logs (env : RunEnv) (sid p : String) (i : Nat)
    (pl : String) (s : Session) :
    (handleImageResult env sid p i pl s).logs = s.logs := rfl

@[simp] lemma handleImageResult_totalTarget (env : RunEnv) (sid p : String) (i : Nat)
    (pl : String) (s : Session) :
    (handleImageResult env sid p i pl s).totalTarget = s.totalTarget := rfl

lemma logs_prefix_addLog (env : RunEnv) (s : Session) (m : String) :
    s.logs <+: (addLog env s m).logs :=
  ⟨[logLine env s.logs.length m], rfl⟩

lemma HasLog.mono {s s' : Session} {m : String} (h : HasLog s m)
    (hp : s.logs <+: s'.logs) : HasLog s' m := by
  obtain ⟨ts, hts⟩ := h
  exact ⟨ts, hp.sublist.subset hts⟩

lemma hasLog_addLog_self (env : RunEnv) (s : Session) (m : String) :
    HasLog (addLog env s m) m :=
  ⟨env.clock s.logs.length, by simp [addLog, logLine]⟩

/-! ### Lemmas about the per-item loop -/

lemma generationLoop_status (env : RunEnv) (sid : String) (len : Nat) :
    ∀ (l : List (Nat × String)) (st : Session),
      (generationLoop env sid len l st).status = st.status := by
  intro l
  induction l with
  | nil => intro st; rfl
  | cons hd rest ih =>
    intro st
    obtain ⟨i, p⟩ := hd
    by_cases hc : cancelledAt env (i + 1)
    · simp [generationLoop, hc]
    · cases hs : env.synth i with
      | ok payload => simp [generationLoop, hc, hs, ih]
      | error e => simp [generationLoop, hc, hs, ih]

lemma generationLoop_totalTarget (env : RunEnv) (sid : String) (len : Nat) :
    ∀ (l : List (Nat × String)) (st : Session),
      (generationLoop env sid len l st).totalTarget = st.totalTarget := by
  intro l
  induction l with
  | nil => intro st; rfl
  | cons hd rest ih =>
    intro st
    obtain ⟨i, p⟩ := hd
    by_cases hc : cancelledAt env (i + 1)
    · simp [generationLoop, hc]
    · cases hs : env.synth i with
      | ok payload => simp [generationLoop, hc, hs, ih]
      | error e => simp [generationLoop, hc, hs, ih]

lemma generationLoop_images (env : RunEnv) (sid : String) (len : Nat) :
    ∀ (l : List (Nat × String)) (st : Session),
      (generationLoop env sid len l st).generatedImages =
        st.generatedImages ++ runImages env sid l := by
  intro l
  induction l with
  | nil => intro st; simp [generationLoop, runImages]
  | cons hd rest ih =>
    intro st
    obtain ⟨i, p⟩ := hd
    by_cases hc : cancelledAt env (i + 1)
    · simp [generationLoop, runImages, hc]
    · cases hs : env.synth i with
      | ok payload =>
        simp [generationLoop, runImages, hc, hs, ih, handleImageResult]
      | error e =>
        simp [generationLoop, runImages, hc, hs, ih]

lemma generationLoop_logs_grow (env : RunEnv) (sid : String) (len : Nat) :
    ∀ (l : List (Nat × String)) (st : Session),
      st.logs <+: (generationLoop env sid len l st).logs := by
  intro l
  induction l with
  | nil => intro st; exact List.prefix_rfl
  | cons hd rest ih =>
    intro st
    obtain ⟨i, p⟩ := hd
    by_cases hc : cancelledAt env (i + 1)
    · simp [generationLoop, hc]
    · cases hs : env.synth i with
      | ok payload =>
        simp only [generationLoop, hc, if_false, hs]
        refine List.IsPrefix.trans ?_ (ih _)
        simp [addLog]
      | error e =>
        simp only [generationLoop, hc, if_false, hs]
        refine List.IsPrefix.trans ?_ (ih _)
        refine List.IsPrefix.trans (logs_prefix_addLog env st (itemStartMsg i len)) ?_
        exact logs_prefix_addLog env _ (itemErrMsg i e)

lemma generationLoopTrace_getLastD (env : RunEnv) (sid : String) (len : Nat) :
    ∀ (l : List (Nat × String)) (st : Session),
      (generationLoopTrace env sid len l st).getLastD st =
        generationLoop env sid len l st := by
  intro l
  induction l with
  | nil => intro st; rfl
  | cons hd rest ih =>
    intro st
    obtain ⟨i, p⟩ := hd
    cases hc : cancelledAt env (i + 1) with
    | true => simp [generationLoopTrace, generationLoop, hc]
    | false =>
      cases hs : env.synth i with
      | ok payload =>
        simp only [generationLoopTrace, generationLoop, hs, hc, Bool.false_eq_true,
          if_false, List.getLastD_cons]
        exact ih _
      | error e =>
        simp only [generationLoopTrace, generationLoop, hs, hc, Bool.false_eq_true,
          if_false, List.getLastD_cons]
        exact ih _

lemma generationLoopTrace_mem_status (env : RunEnv) (sid : String) (len : Nat) :
    ∀ (l : List (Nat × String)) (st : Session),
      ∀ t ∈ generationLoopTrace env sid len l st, t.status = st.status := by
  intro l
  induction l with
  | nil => intro st t ht; simp [generationLoopTrace] at ht
  | cons hd rest ih =>
    intro st t ht
    obtain ⟨i, p⟩ := hd
    cases hc : cancelledAt env (i + 1) with
    | true => simp [generationLoopTrace, hc] at ht
    | false =>
      cases hs : env.synth i with
      | ok payload =>
        simp only [generationLoopTrace, hs, hc, Bool.false_eq_true, if_false,
          List.mem_cons] at ht
        rcases ht with h | h | h
        · simp [h]
        · simp [h]
        · simpa using ih _ t h
      | error e =>
        simp only [generationLoopTrace, hs, hc, Bool.false_eq_true, if_false,
          List.mem_cons] at ht
        rcases ht with h | h | h
        · simp [h]
        · simp [h]
        · simpa using ih _ t h

lemma generationLoopTrace_mem_totalTarget (env : RunEnv) (sid : String) (len : Nat) :
    ∀ (l : List (Nat × String)) (st : Session),
      ∀ t ∈ generationLoopTrace env sid len l st, t.totalTarget = st.totalTarget := by
  intro l
  induction l with
  | nil => intro st t ht; simp [generationLoopTrace] at ht
  | cons hd rest ih =>
    intro st t ht
    obtain ⟨i, p⟩ := hd
    cases hc : cancelledAt env (i + 1) with
    | true => simp [generationLoopTrace, hc] at ht
    | false =>
      cases hs : env.synth i with
      | ok payload =>
        simp only [generationLoopTrace, hs, hc, Bool.false_eq_true, if_false,
          List.mem_cons] at ht
        rcases ht with h | h | h
        · simp [h]
        · simp [h]
        · simpa using ih _ t h
      | error e =>
        simp only [generationLoopTrace, hs, hc, Bool.false_eq_true, if_false,
          List.mem_cons] at ht
        rcases ht with h | h | h
        · simp [h]
        · simp [h]
        · simpa using ih _ t h

lemma generationLoopTrace_mem_images_le (env : RunEnv) (sid : String) (len : Nat) :
    ∀ (l : List (Nat × String)) (st : Session),
      ∀ t ∈ generationLoopTrace env sid len l st,
        t.generatedImages.length ≤ st.generatedImages.length + l.length := by
  intro l
  induction l with
  | nil => intro st t ht; simp [generationLoopTrace] at ht
  | cons hd rest ih =>
    intro st t ht
    obtain ⟨i, p⟩ := hd
    cases hc : cancelledAt env (i + 1) with
    | true => simp [generationLoopTrace, hc] at ht
    | false =>
      cases hs : env.synth i with
      | ok payload =>
        simp only [generationLoopTrace, hs, hc, Bool.false_eq_true, if_false,
          List.mem_cons] at ht
        rcases ht with h | h | h
        · subst h; simp
        · subst h
          simp [handleImageResult]
        · have := ih (handleImageResult env sid p i payload (addLog env st (itemStartMsg i len))) t h
          simp [handleImageResult] at this
          simp only [List.length_cons]
          omega
      | error e =>
        simp only [generationLoopTrace, hs, hc, Bool.false_eq_true, if_false,
          List.mem_cons] at ht
        rcases ht with h | h | h
        · subst h; simp
        · subst h; simp
        · have := ih (addLog env (addLog env st (itemStartMsg i len)) (itemErrMsg i e)) t h
          simp at this
          simp only [List.length_cons]
          omega

lemma generationLoopTrace_chain_logs (env : RunEnv) (sid : String) (len : Nat) :
    ∀ (l : List (Nat × String)) (st : Session),
      List.Chain' (fun a b => a.logs <+: b.logs)
        (st :: generationLoopTrace env sid len l st) := by
  intro l
  induction l with
  | nil => intro st; simp [generationLoopTrace]
  | cons hd rest ih =>
    intro st
    obtain ⟨i, p⟩ := hd
    cases hc : cancelledAt env (i + 1) with
    | true => simp [generationLoopTrace, hc]
    | false =>
      cases hs : env.synth i with
      | ok payload =>
        simp only [generationLoopTrace, hs, hc, Bool.false_eq_true, if_false]
        rw [List.chain'_cons, List.chain'_cons]
        refine ⟨logs_prefix_addLog env st (itemStartMsg i len), ?_, ih _⟩
        simp [handleImageResult]
      | error e =>
        simp only [generationLoopTrace, hs, hc, Bool.false_eq_true, if_false]
        rw [List.chain'_cons, List.chain'_cons]
        exact ⟨logs_prefix_addLog env st (itemStartMsg i len),
          logs_prefix_addLog env _ (itemErrMsg i e), ih _⟩

/-- The arithmetic step of the progress formula: one more completed image
never lowers progress. -/
lemma progress_step_mono (k total : Nat) :
    15 + k * 85 / total ≤ 15 + (k + 1) * 85 / total := by
  have h : k * 85 ≤ (k + 1) * 85 := by omega
  exact Nat.add_le_add_left (Nat.div_le_div_right h) 15

/-- The progress formula stays at most 100 while the image count is within
the target. -/
lemma progress_le_100 {k total : Nat} (hk : k ≤ total) (htotal : 0 < total) :
    15 + k * 85 / total ≤ 100 := by
  have h1 : k * 85 ≤ total * 85 := by
    exact Nat.mul_le_mul_right 85 hk
  have h2 : k * 85 / total ≤ total * 85 / total := Nat.div_le_div_right h1
  rw [Nat.mul_div_cancel_left 85 htotal] at h2
  omega

/-- Invariant of the loop trace: the target never changes, and every state
carries progress `15 + floor(85 * images / target)`; consequently progress
is non-decreasing along the loop. -/
lemma generationLoopTrace_progress (env : RunEnv) (sid : String) (len total : Nat) :
    ∀ (l : List (Nat × String)) (st : Session),
      st.totalTarget = total →
      st.progress = 15 + st.generatedImages.length * 85 / total →
      (∀ t ∈ generationLoopTrace env sid len l st,
         t.progress = 15 + t.generatedImages.length * 85 / total) ∧
      List.Chain' (fun a b => a.progress ≤ b.progress)
        (st :: generationLoopTrace env sid len l st) := by
  intro l
  induction l with
  | nil =>
    intro st _ _
    exact ⟨by simp [generationLoopTrace], by simp [generationLoopTrace]⟩
  | cons hd rest ih =>
    intro st htt hp
    obtain ⟨i, p⟩ := hd
    cases hc : cancelledAt env (i + 1) with
    | true => exact ⟨by simp [generationLoopTrace, hc], by simp [generationLoopTrace, hc]⟩
    | false =>
      cases hs : env.synth i with
      | ok payload =>
        have hs1tt : (addLog env st (itemStartMsg i len)).totalTarget = total := by
          simpa using htt
        have hs2tt :
            (handleImageResult env sid p i payload (addLog env st (itemStartMsg i len))).totalTarget
              = total := by simpa using htt
        have hs2p :
            (handleImageResult env sid p i payload (addLog env st (itemStartMsg i len))).progress
              = 15 + (handleImageResult env sid p i payload
                  (addLog env st (itemStartMsg i len))).generatedImages.length * 85 / total := by
          simp [handleImageResult, htt]
        obtain ⟨ihmem, ihchain⟩ := ih _ hs2tt hs2p
        constructor
        · intro t ht
          simp only [generationLoopTrace, hs, hc, Bool.false_eq_true, if_false,
            List.mem_cons] at ht
          rcases ht with h | h | h
          · subst h; simpa using hp
          · subst h; exact hs2p
          · exact ihmem t h
        · simp only [generationLoopTrace, hs, hc, Bool.false_eq_true, if_false]
          rw [List.chain'_cons, List.chain'_cons]
          refine ⟨le_of_eq (by simp), ?_, ihchain⟩
          simp only [addLog_progress, handleImageResult, addLog_generatedImages]
          rw [hp]
          simp only [addLog_totalTarget, htt, List.length_append, List.length_singleton]
          exact progress_step_mono st.generatedImages.length total
      | error e =>
        have hs2tt :
            (addLog env (addLog env st (itemStartMsg i len)) (itemErrMsg i e)).totalTarget
              = total := by simpa using htt
        have hs2p :
            (addLog env (addLog env st (itemStartMsg i len)) (itemErrMsg i e)).progress
              = 15 + (addLog env (addLog env st (itemStartMsg i len))
                  (itemErrMsg i e)).generatedImages.length * 85 / total := by
          simpa using hp
        obtain ⟨ihmem, ihchain⟩ := ih _ hs2tt hs2p
        constructor
        · intro t ht
          simp only [generationLoopTrace, hs, hc, Bool.false_eq_true, if_false,
            List.mem_cons] at ht
          rcases ht with h | h | h
          · subst h; simpa using hp
          · subst h; exact hs2p
          · exact ihmem t h
        · simp only [generationLoopTrace, hs, hc, Bool.false_eq_true, if_false]
          rw [List.chain'_cons, List.chain'_cons]
          exact ⟨le_of_eq (by simp), le_of_eq (by simp), ihchain⟩

/-- When the run is never cancelled, the loop logs the failure of item `k`
with its 1-based index and the error message. -/
lemma generationLoop_hasLog_err (env : RunEnv) (sid : String) (len : Nat)
    (hnc : env.cancelPoint = none) :
    ∀ (l : List String) (i : Nat) (st : Session) (k : Nat) (e : String),
      env.synth k = Except.error e → i ≤ k → k < i + l.length →
      HasLog (generationLoop env sid len (List.enumFrom i l) st) (itemErrMsg k e) := by
  intro l
  induction l with
  | nil => intro i st k e _ hik hk; simp at hk; omega
  | cons p ps ih =>
    intro i st k e he hik hk
    rw [List.enumFrom_cons]
    rcases Nat.eq_or_lt_of_le hik with heq | hlt
    · subst heq
      simp only [generationLoop, cancelledAt_none hnc, Bool.false_eq_true, if_false, he]
      exact (hasLog_addLog_self env _ (itemErrMsg i e)).mono
        (generationLoop_logs_grow env sid len _ _)
    · cases hs : env.synth i with
      | ok payload =>
        simp only [generationLoop, cancelledAt_none hnc, Bool.false_eq_true, if_false, hs]
        exact ih (i + 1) _ k e he hlt (by simp at hk ⊢; omega)
      | error e2 =>
        simp only [generationLoop, cancelledAt_none hnc, Bool.false_eq_true, if_false, hs]
        exact ih (i + 1) _ k e he hlt (by simp at hk ⊢; omega)

/-- When the run is never cancelled, the loop logs the attempt of every
item with its 1-based index. -/
lemma generationLoop_hasLog_start (env : RunEnv) (sid : String) (len : Nat)
    (hnc : env.cancelPoint = none) :
    ∀ (l : List String) (i : Nat) (st : Session) (k : Nat),
      i ≤ k → k < i + l.length →
      HasLog (generationLoop env sid len (List.enumFrom i l) st) (itemStartMsg k len) := by
  intro l
  induction l with
  | nil => intro i st k hik hk; simp at hk; omega
  | cons p ps ih =>
    intro i st k hik hk
    rw [List.enumFrom_cons]
    rcases Nat.eq_or_lt_of_le hik with heq | hlt
    · subst heq
      cases hs : env.synth i with
      | ok payload =>
        simp only [generationLoop, cancelledAt_none hnc, Bool.false_eq_true, if_false, hs]
        refine (hasLog_addLog_self env st (itemStartMsg i len)).mono ?_
        refine List.IsPrefix.trans ?_ (generationLoop_logs_grow env sid len _ _)
        simp [handleImageResult]
      | error e2 =>
        simp only [generationLoop, cancelledAt_none hnc, Bool.false_eq_true, if_false, hs]
        refine (hasLog_addLog_self env st (itemStartMsg i len)).mono ?_
        refine List.IsPrefix.trans ?_ (generationLoop_logs_grow env sid len _ _)
        exact logs_prefix_addLog env _ (itemErrMsg i e2)
    · cases hs : env.synth i with
      | ok payload =>
        simp only [generationLoop, cancelledAt_none hnc, Bool.false_eq_true, if_false, hs]
        exact ih (i + 1) _ k hlt (by simp at hk ⊢; omega)
      | error e2 =>
        simp only [generationLoop, cancelledAt_none hnc, Bool.false_eq_true, if_false, hs]
        exact ih (i + 1) _ k hlt (by simp at hk ⊢; omega)

/-- Every item the loop actually starts was reached with the abort flag
observed false at its checkpoint. -/
lemma runCalls_not_cancelled (env : RunEnv) :
    ∀ (l : List (Nat × String)) (j : Nat),
      j ∈ runCalls env l → cancelledAt env (j + 1) = false := by
  intro l
  induction l with
  | nil => intro j hj; simp [runCalls] at hj
  | cons hd rest ih =>
    intro j hj
    obtain ⟨i, p⟩ := hd
    cases hc : cancelledAt env (i + 1) with
    | true => simp [runCalls, hc] at hj
    | false =>
      simp only [runCalls, hc, Bool.false_eq_true, if_false, List.mem_cons] at hj
      rcases hj with h | h
      · subst h; exact hc
      · exact ih j h

/-- Once the abort flag is observed at an item's checkpoint, the loop
appends no image at all from that point on. -/
lemma runImages_nil_of_cancelled (env : RunEnv) (sid : String) :
    ∀ (l : List (Nat × String)),
      (∀ i p, (i, p) ∈ l → cancelledAt env (i + 1) = true) →
      runImages env sid l = [] := by
  intro l
  induction l with
  | nil => intro _; rfl
  | cons hd rest ih =>
    intro h
    obtain ⟨i, p⟩ := hd
    have hc : cancelledAt env (i + 1) = true := h i p (by simp)
    simp [runImages, hc]

/-! ### Lemmas about the run phases -/

lemma getLastD_cases {α : Type} (l : List α) (d : α) :
    l.getLastD d = d ∨ l.getLastD d ∈ l := by
  have h := List.getLastD_mem_cons l d
  simpa using h

lemma expandedState_status (s : Session) (env : RunEnv) :
    (expandedState s env).status = Status.generating := by
  cases h : env.expansion <;> simp [expandedState, preTrace, h]

lemma expandedState_progress (s : Session) (env : RunEnv) :
    (expandedState s env).progress = 5 := by
  cases h : env.expansion <;> simp [expandedState, preTrace, h]

lemma expandedState_images (s : Session) (env : RunEnv) :
    (expandedState s env).generatedImages = s.generatedImages := by
  cases h : env.expansion <;> simp [expandedState, preTrace, h]

lemma expandedState_totalTarget (s : Session) (env : RunEnv) :
    (expandedState s env).totalTarget = s.totalTarget := by
  cases h : env.expansion <;> simp [expandedState, preTrace, h]

lemma adoptedState_eq (s : Session) (env : RunEnv) :
    adoptedState s env =
      addLog env
        (addLog env
          { expandedState s env with
              generatedPrompts := adoptedPrompts s env, progress := 15 }
          (variationsMsg (adoptedPrompts s env).length))
        (ratioMsg (adoptedRatio env)) := by
  simp [adoptedState, adoptTrace]

lemma adoptedState_status (s : Session) (env : RunEnv) :
    (adoptedState s env).status = Status.generating := by
  rw [adoptedState_eq]
  simp [expandedState_status]

lemma adoptedState_progress (s : Session) (env : RunEnv) :
    (adoptedState s env).progress = 15 := by
  rw [adoptedState_eq]; simp

lemma adoptedState_images (s : Session) (env : RunEnv) :
    (adoptedState s env).generatedImages = s.generatedImages := by
  rw [adoptedState_eq]
  simp [expandedState_images]

lemma adoptedState_totalTarget (s : Session) (env : RunEnv) :
    (adoptedState s env).totalTarget = s.totalTarget := by
  rw [adoptedState_eq]
  simp [expandedState_totalTarget]

lemma expandedState_logs_prefix_adopted (s : Session) (env : RunEnv) :
    (expandedState s env).logs <+: (adoptedState s env).logs := by
  rw [adoptedState_eq]
  refine List.IsPrefix.trans ?_ (logs_prefix_addLog env _ _)
  exact logs_prefix_addLog env _ _

/-! ### Lemmas about a whole run -/

/-- The run itself never writes the `failed` status: expansion failures
fall back and per-item failures are caught inside the loop. -/
lemma startGeneration_status_ne_failed (s : Session) (env : RunEnv) :
    (startGeneration s env).status ≠ Status.failed := by
  unfold startGeneration
  cases hc : cancelledAt env 0 with
  | true =>
    simp only [if_true]
    rw [expandedState_status]
    decide
  | false =>
    simp only [Bool.false_eq_true, if_false]
    by_cases hc2 : cancelledAt env ((adoptedPrompts s env).length + 1) = true
    · simp [hc2]
    · simp [hc2]

/-- The images of the final state are exactly the initial images followed
by one image per successfully synthesized item, in item order. -/
lemma startGeneration_images (s : Session) (env : RunEnv) :
    (startGeneration s env).generatedImages =
      s.generatedImages ++
        runImages env s.id (List.enumFrom 0 (adoptedPrompts s env)) := by
  unfold startGeneration
  cases hc : cancelledAt env 0 with
  | true =>
    simp only [if_true]
    rw [runImages_nil_of_cancelled]
    · simp [expandedState_images]
    · intro i p _
      exact cancelledAt_mono (by omega) hc
  | false =>
    simp only [Bool.false_eq_true, if_false]
    cases hc2 : cancelledAt env ((adoptedPrompts s env).length + 1) with
    | true =>
      simp only [hc2, if_true]
      rw [show ({ generationLoop env s.id (adoptedPrompts s env).length
          (List.enumFrom 0 (adoptedPrompts s env)) (adoptedState s env) with
            status := Status.stopped } : Session).generatedImages =
          (generationLoop env s.id (adoptedPrompts s env).length
            (List.enumFrom 0 (adoptedPrompts s env)) (adoptedState s env)).generatedImages
        from rfl]
      rw [generationLoop_images, adoptedState_images]
    | false =>
      simp only [hc2, Bool.false_eq_true, if_false]
      rw [addLog_generatedImages]
      rw [show ({ generationLoop env s.id (adoptedPrompts s env).length
          (List.enumFrom 0 (adoptedPrompts s env)) (adoptedState s env) with
            status := Status.completed, progress := 100 } : Session).generatedImages =
          (generationLoop env s.id (adoptedPrompts s env).length
            (List.enumFrom 0 (adoptedPrompts s env)) (adoptedState s env)).generatedImages
        from rfl]
      rw [generationLoop_images, adoptedState_images]

/-- The logs present after the expansion step survive to the end of the
run: every later operation only appends. -/
lemma startGeneration_logs_extends (s : Session) (env : RunEnv) :
    (expandedState s env).logs <+: (startGeneration s env).logs := by
  unfold startGeneration
  cases hc : cancelledAt env 0 with
  | true => simp
  | false =>
    simp only [Bool.false_eq_true, if_false]
    have h1 := expandedState_logs_prefix_adopted s env
    have h2 := generationLoop_logs_grow env s.id (adoptedPrompts s env).length
      (List.enumFrom 0 (adoptedPrompts s env)) (adoptedState s env)
    cases hc2 : cancelledAt env ((adoptedPrompts s env).length + 1) with
    | true =>
      simp only [hc2, if_true]
      exact h1.trans h2
    | false =>
      simp only [hc2, Bool.false_eq_true, if_false]
      refine (h1.trans h2).trans ?_
      exact logs_prefix_addLog env _ completedMsg

/-- Unfolding of a run that is never cancelled. -/
lemma startGeneration_nocancel (s : Session) (env : RunEnv)
    (hnc : env.cancelPoint = none) :
    startGeneration s env =
      addLog env
        { generationLoop env s.id (adoptedPrompts s env).length
            (List.enumFrom 0 (adoptedPrompts s env)) (adoptedState s env) with
          status := Status.completed, progress := 100 } completedMsg := by
  simp [startGeneration, cancelledAt_none hnc]

/-! ### Membership facts for the phase traces -/

lemma preTrace_mem_images (s : Session) (env : RunEnv) :
    ∀ t ∈ preTrace s env, t.generatedImages = s.generatedImages := by
  intro t ht
  cases h : env.expansion with
  | ok r =>
    simp [preTrace, h] at ht
    rcases ht with h1 | h1 | h1 <;> simp [h1]
  | error e =>
    simp [preTrace, h] at ht
    rcases ht with h1 | h1 | h1 | h1 <;> simp [h1]

lemma preTrace_mem_progress (s : Session) (env : RunEnv) :
    ∀ t ∈ preTrace s env, t.progress = 5 := by
  intro t ht
  cases h : env.expansion with
  | ok r =>
    simp [preTrace, h] at ht
    rcases ht with h1 | h1 | h1 <;> simp [h1]
  | error e =>
    simp [preTrace, h] at ht
    rcases ht with h1 | h1 | h1 | h1 <;> simp [h1]

lemma preTrace_mem_status (s : Session) (env : RunEnv) :
    ∀ t ∈ preTrace s env, t.status = Status.generating := by
  intro t ht
  cases h : env.expansion with
  | ok r =>
    simp [preTrace, h] at ht
    rcases ht with h1 | h1 | h1 <;> simp [h1]
  | error e =>
    simp [preTrace, h] at ht
    rcases ht with h1 | h1 | h1 | h1 <;> simp [h1]

lemma adoptTrace_mem_images (s : Session) (env : RunEnv) :
    ∀ t ∈ adoptTrace s env, t.generatedImages = s.generatedImages := by
  intro t ht
  simp [adoptTrace] at ht
  rcases ht with h1 | h1 | h1 <;> simp [h1, expandedState_images]

lemma adoptTrace_mem_progress (s : Session) (env : RunEnv) :
    ∀ t ∈ adoptTrace s env, t.progress = 15 := by
  intro t ht
  simp [adoptTrace] at ht
  rcases ht with h1 | h1 | h1 <;> simp [h1]

lemma adoptTrace_mem_status (s : Session) (env : RunEnv) :
    ∀ t ∈ adoptTrace s env, t.status = Status.generating := by
  intro t ht
  simp [adoptTrace] at ht
  rcases ht with h1 | h1 | h1 <;> simp [h1, expandedState_status]

lemma postTrace_mem (env : RunEnv) (len : Nat) (sL : Session) :
    ∀ t ∈ postTrace env len sL,
      t.generatedImages = sL.generatedImages ∧
      ((t.status = Status.stopped ∧ t.progress = sL.progress) ∨
       (t.status = Status.completed ∧ t.progress = 100)) := by
  intro t ht
  unfold postTrace at ht
  by_cases hc : cancelledAt env (len + 1) = true
  · simp [hc] at ht
    simp [ht]
  · simp [hc] at ht
    rcases ht with h1 | h1 <;> simp [h1]

lemma startGenerationTrace_headI (s : Session) (env : RunEnv) :
    (startGenerationTrace s env).headI =
      { s with status := Status.generating, progress := 5, logs := [] } := by
  unfold startGenerationTrace
  cases hc : cancelledAt env 0 <;> cases h : env.expansion <;> simp [preTrace, h]

/-! ### Chain structure of the run trace -/

lemma preTrace_chain_logs (s : Session) (env : RunEnv) :
    List.Chain' (fun a b => a.logs <+: b.logs) (preTrace s env) := by
  cases h : env.expansion with
  | ok r =>
    simp only [preTrace, h]
    rw [List.chain'_cons, List.chain'_cons]
    exact ⟨logs_prefix_addLog env _ _, logs_prefix_addLog env _ _,
      List.chain'_singleton _⟩
  | error e =>
    simp only [preTrace, h]
    rw [List.chain'_cons, List.chain'_cons, List.chain'_cons]
    exact ⟨logs_prefix_addLog env _ _, logs_prefix_addLog env _ _,
      logs_prefix_addLog env _ _, List.chain'_singleton _⟩

lemma adoptTrace_chain_logs (s : Session) (env : RunEnv) :
    List.Chain' (fun a b => a.logs <+: b.logs) (adoptTrace s env) := by
  simp only [adoptTrace]
  rw [List.chain'_cons, List.chain'_cons]
  exact ⟨logs_prefix_addLog env _ _, logs_prefix_addLog env _ _,
    List.chain'_singleton _⟩

lemma preTrace_getLast_eq (s : Session) (env : RunEnv) :
    (preTrace s env).getLast? = some (expandedState s env) := by
  cases h : env.expansion <;> simp [preTrace, expandedState, h]

lemma adoptTrace_head_eq (s : Session) (env : RunEnv) :
    (adoptTrace s env).head? =
      some { expandedState s env with
              generatedPrompts := adoptedPrompts s env, progress := 15 } := by
  simp [adoptTrace]

lemma adoptTrace_getLast_eq (s : Session) (env : RunEnv) :
    (adoptTrace s env).getLast? = some (adoptedState s env) := by
  simp [adoptTrace, adoptedState]

lemma postTrace_head_logs (env : RunEnv) (len : Nat) (sL : Session) :
    ∀ y ∈ (postTrace env len sL).head?, sL.logs <+: y.logs := by
  intro y hy
  unfold postTrace at hy
  by_cases hc : cancelledAt env (len + 1) = true
  · simp [hc] at hy
    subst hy
    exact List.prefix_rfl
  · simp [hc] at hy
    subst hy
    exact List.prefix_rfl

lemma postTrace_chain_logs (env : RunEnv) (len : Nat) (sL : Session) :
    List.Chain' (fun a b => a.logs <+: b.logs) (postTrace env len sL) := by
  unfold postTrace
  by_cases hc : cancelledAt env (len + 1) = true
  · simp [hc]
  · simp only [hc, Bool.false_eq_true, if_false]
    rw [List.chain'_cons]
    exact ⟨logs_prefix_addLog env _ _, List.chain'_singleton _⟩

/-- Within one run every state update only appends to the log: along the
whole trace each state's log list is a prefix of the next state's. -/
lemma startGenerationTrace_chain_logs (s : Session) (env : RunEnv) :
    List.Chain' (fun a b => a.logs <+: b.logs) (startGenerationTrace s env) := by
  unfold startGenerationTrace
  cases hc : cancelledAt env 0 with
  | true => simpa using preTrace_chain_logs s env
  | false =>
    simp only [Bool.false_eq_true, if_false]
    rw [List.append_assoc]
    refine List.Chain'.append ?_ ?_ ?_
    · -- preTrace ++ adoptTrace
      refine List.Chain'.append (preTrace_chain_logs s env) (adoptTrace_chain_logs s env) ?_
      intro x hx y hy
      rw [preTrace_getLast_eq] at hx
      rw [adoptTrace_head_eq] at hy
      simp only [Option.mem_def, Option.some.injEq] at hx hy
      subst hx; subst hy
      exact List.prefix_rfl
    · -- loop trace ++ postTrace
      refine List.Chain'.append ?_ (postTrace_chain_logs env _ _) ?_
      · exact (generationLoopTrace_chain_logs env s.id _ _ (adoptedState s env)).tail
      · intro x hx y hy
        have hxl : (generationLoopTrace env s.id (adoptedPrompts s env).length
            (List.enumFrom 0 (adoptedPrompts s env)) (adoptedState s env)).getLastD
              (adoptedState s env) = x := by
          rw [List.getLastD_eq_getLast?]
          simp only [Option.mem_def] at hx
          rw [hx]
          rfl
        rw [← hxl]
        exact postTrace_head_logs env _ _ y hy
    · -- link between the two halves
      intro x hx y hy
      simp only [List.getLast?_append, adoptTrace_getLast_eq, Option.mem_def] at hx
      have hx2 : x = adoptedState s env := by
        cases h2 : (adoptTrace s env).getLast? with
        | none => rw [adoptTrace_getLast_eq] at h2; cases h2
        | some v =>
          rw [adoptTrace_getLast_eq] at h2
          cases h2
          simp at hx
          exact hx.symm
      subst hx2
      rcases htr : generationLoopTrace env s.id (adoptedPrompts s env).length
          (List.enumFrom 0 (adoptedPrompts s env)) (adoptedState s env) with _ | ⟨h1, t1⟩
      · -- loop trace empty: head of the append is the head of postTrace
        rw [htr] at hy
        simp only [List.nil_append] at hy
        have := postTrace_head_logs env (adoptedPrompts s env).length
          ((generationLoopTrace env s.id (adoptedPrompts s env).length
            (List.enumFrom 0 (adoptedPrompts s env)) (adoptedState s env)).getLastD
            (adoptedState s env)) y
        rw [htr] at this
        exact this hy
      · -- loop trace nonempty: its head extends the adopted state
        rw [htr] at hy
        simp only [List.cons_append, List.head?_cons, Option.mem_def,
          Option.some.injEq] at hy
        subst hy
        have hchain := generationLoopTrace_chain_logs env s.id
          (adoptedPrompts s env).length (List.enumFrom 0 (adoptedPrompts s env))
          (adoptedState s env)
        rw [htr, List.chain'_cons] at hchain
        exact hchain.1

/-! ### Progress structure of the run trace -/

lemma adoptedState_progress_formula (s : Session) (env : RunEnv)
    (himg : s.generatedImages = []) :
    (adoptedState s env).progress =
      15 + (adoptedState s env).generatedImages.length * 85 / s.totalTarget := by
  rw [adoptedState_progress, adoptedState_images, himg]
  simp

lemma runLoopTrace_facts (s : Session) (env : RunEnv)
    (himg : s.generatedImages = []) (hn : 0 < s.totalTarget)
    (hlen : (adoptedPrompts s env).length ≤ s.totalTarget) :
    (∀ t ∈ generationLoopTrace env s.id (adoptedPrompts s env).length
        (List.enumFrom 0 (adoptedPrompts s env)) (adoptedState s env),
        t.progress = 15 + t.generatedImages.length * 85 / s.totalTarget ∧
        t.progress ≤ 100) ∧
    List.Chain' (fun a b => a.progress ≤ b.progress)
      (adoptedState s env :: generationLoopTrace env s.id (adoptedPrompts s env).length
        (List.enumFrom 0 (adoptedPrompts s env)) (adoptedState s env)) := by
  obtain ⟨hmem, hchain⟩ := generationLoopTrace_progress env s.id
    (adoptedPrompts s env).length s.totalTarget
    (List.enumFrom 0 (adoptedPrompts s env)) (adoptedState s env)
    (adoptedState_totalTarget s env) (adoptedState_progress_formula s env himg)
  refine ⟨fun t ht => ⟨hmem t ht, ?_⟩, hchain⟩
  rw [hmem t ht]
  have hb := generationLoopTrace_mem_images_le env s.id
    (adoptedPrompts s env).length (List.enumFrom 0 (adoptedPrompts s env))
    (adoptedState s env) t ht
  rw [adoptedState_images, himg, List.enumFrom_length] at hb
  simp only [List.length_nil, Nat.zero_add] at hb
  exact progress_le_100 (le_trans hb hlen) hn

lemma loopLast_progress (s : Session) (env : RunEnv)
    (himg : s.generatedImages = []) (hn : 0 < s.totalTarget)
    (hlen : (adoptedPrompts s env).length ≤ s.totalTarget) :
    ((generationLoopTrace env s.id (adoptedPrompts s env).length
        (List.enumFrom 0 (adoptedPrompts s env)) (adoptedState s env)).getLastD
        (adoptedState s env)).progress =
      15 + ((generationLoopTrace env s.id (adoptedPrompts s env).length
        (List.enumFrom 0 (adoptedPrompts s env)) (adoptedState s env)).getLastD
        (adoptedState s env)).generatedImages.length * 85 / s.totalTarget ∧
    ((generationLoopTrace env s.id (adoptedPrompts s env).length
        (List.enumFrom 0 (adoptedPrompts s env)) (adoptedState s env)).getLastD
        (adoptedState s env)).progress ≤ 100 := by
  rcases getLastD_cases (generationLoopTrace env s.id (adoptedPrompts s env).length
      (List.enumFrom 0 (adoptedPrompts s env)) (adoptedState s env)) (adoptedState s env)
    with h | h
  · rw [h]
    refine ⟨adoptedState_progress_formula s env himg, ?_⟩
    rw [adoptedState_progress]
    omega
  · obtain ⟨hm, _⟩ := runLoopTrace_facts s env himg hn hlen
    exact ⟨(hm _ h).1, (hm _ h).2⟩

lemma preTrace_chain_progress (s : Session) (env : RunEnv) :
    List.Chain' (fun a b => a.progress ≤ b.progress) (preTrace s env) := by
  cases h : env.expansion with
  | ok r =>
    simp only [preTrace, h]
    rw [List.chain'_cons, List.chain'_cons]
    exact ⟨le_refl _, le_refl _, List.chain'_singleton _⟩
  | error e =>
    simp only [preTrace, h]
    rw [List.chain'_cons, List.chain'_cons, List.chain'_cons]
    exact ⟨le_refl _, le_refl _, le_refl _, List.chain'_singleton _⟩

lemma adoptTrace_chain_progress (s : Session) (env : RunEnv) :
    List.Chain' (fun a b => a.progress ≤ b.progress) (adoptTrace s env) := by
  simp only [adoptTrace]
  rw [List.chain'_cons, List.chain'_cons]
  exact ⟨le_refl _, le_refl _, List.chain'_singleton _⟩

lemma postTrace_chain_progress (env : RunEnv) (len : Nat) (sL : Session) :
    List.Chain' (fun a b => a.progress ≤ b.progress) (postTrace env len sL) := by
  unfold postTrace
  by_cases hc : cancelledAt env (len + 1) = true
  · simp [hc]
  · simp only [hc, Bool.false_eq_true, if_false]
    rw [List.chain'_cons]
    exact ⟨le_refl _, List.chain'_singleton _⟩

lemma postTrace_head_progress (env : RunEnv) (len : Nat) (sL : Session)
    (h100 : sL.progress ≤ 100) :
    ∀ y ∈ (postTrace env len sL).head?, sL.progress ≤ y.progress := by
  intro y hy
  unfold postTrace at hy
  by_cases hc : cancelledAt env (len + 1) = true
  · simp [hc] at hy
    subst hy
    exact le_refl _
  · simp [hc] at hy
    subst hy
    exact h100

/-- Progress is non-decreasing along the run trace, provided the adopted
prompt list is within the target and the session starts with no images. -/
lemma startGenerationTrace_chain_progress (s : Session) (env : RunEnv)
    (himg : s.generatedImages = []) (hn : 0 < s.totalTarget)
    (hlen : (adoptedPrompts s env).length ≤ s.totalTarget) :
    List.Chain' (fun a b => a.progress ≤ b.progress) (startGenerationTrace s env) := by
  unfold startGenerationTrace
  cases hc : cancelledAt env 0 with
  | true => simpa using preTrace_chain_progress s env
  | false =>
    simp only [Bool.false_eq_true, if_false]
    rw [List.append_assoc]
    refine List.Chain'.append ?_ ?_ ?_
    · refine List.Chain'.append (preTrace_chain_progress s env)
        (adoptTrace_chain_progress s env) ?_
      intro x hx y hy
      rw [preTrace_getLast_eq] at hx
      rw [adoptTrace_head_eq] at hy
      simp only [Option.mem_def, Option.some.injEq] at hx hy
      subst hx; subst hy
      rw [expandedState_progress]
      show (5 : Nat) ≤ 15
      omega
    · refine List.Chain'.append ?_ (postTrace_chain_progress env _ _) ?_
      · exact (runLoopTrace_facts s env himg hn hlen).2.tail
      · intro x hx y hy
        have hxl : (generationLoopTrace env s.id (adoptedPrompts s env).length
            (List.enumFrom 0 (adoptedPrompts s env)) (adoptedState s env)).getLastD
              (adoptedState s env) = x := by
          rw [List.getLastD_eq_getLast?]
          simp only [Option.mem_def] at hx
          rw [hx]
          rfl
        rw [← hxl]
        refine postTrace_head_progress env _ _ ?_ y hy
        exact (loopLast_progress s env himg hn hlen).2
    · intro x hx y hy
      have hx2 : x = adoptedState s env := by
        simp only [List.getLast?_append, adoptTrace_getLast_eq] at hx
        simp at hx
        exact hx.symm
      subst hx2
      rcases htr : generationLoopTrace env s.id (adoptedPrompts s env).length
          (List.enumFrom 0 (adoptedPrompts s env)) (adoptedState s env) with _ | ⟨h1, t1⟩
      · rw [htr] at hy
        simp only [List.nil_append] at hy
        exact postTrace_head_progress env (adoptedPrompts s env).length
          (adoptedState s env) (by rw [adoptedState_progress]; omega) y hy
      · rw [htr] at hy
        simp only [List.cons_append, List.head?_cons, Option.mem_def,
          Option.some.injEq] at hy
        subst hy
        have hchain := (runLoopTrace_facts s env himg hn hlen).2
        rw [htr, List.chain'_cons] at hchain
        exact hchain.1

/-! ### Concrete sessions and oracles -/

/-- A freshly created session (`createSession`, App.tsx lines 108-121)
with target 1. -/
def sampleSession : Session :=
  { id := "1700000000000"
  , name := "a damaged pantograph head"
  , basePrompt := "a damaged pantograph head"
  , referenceImages := []
  , generatedImages := []
  , generatedPrompts := []
  , createdAt := 1700000000000
  , status := Status.idle
  , totalTarget := 1
  , progress := 0
  , logs := ["Session initialized. Waiting to start..."] }

/-- The same fresh session with target 2. -/
def twoTargetSession : Session := { sampleSession with totalTarget := 2 }

/-- Oracle of a run whose expansion call returns two prompts (the source
never checks the returned count against the target) and whose synthesis
calls all succeed. -/
def overlongEnv : RunEnv :=
  { expansion := Except.ok
      { prompts := ["variant one", "variant two"], aspectRatio := "16:9" }
  , synth := fun _ => Except.ok "data:image/png;base64,AAAA"
  , cancelPoint := none
  , clock := fun _ => "10:00:00 AM"
  , now := fun _ => 1700000000001 }

/-- Oracle of a run with two prompts whose second synthesis call fails. -/
def mixedEnv : RunEnv :=
  { expansion := Except.ok
      { prompts := ["variant one", "variant two"], aspectRatio := "4:3" }
  , synth := fun i =>
      if i == 1 then Except.error "boom" else Except.ok "data:image/png;base64,AAAA"
  , cancelPoint := none
  , clock := fun _ => "10:00:00 AM"
  , now := fun _ => 1700000000001 }

/-- Oracle of a run whose expansion call fails. -/
def failExpandEnv : RunEnv := { mixedEnv with expansion := Except.error "network down" }

/-- `mixedEnv` with the shared abort flag observed true from checkpoint 2
on: a stop request arrives while item 0's synthesis call is in flight. -/
def cancelledEnv : RunEnv := { mixedEnv with cancelPoint := some 2 }

/-- `mixedEnv` with the shared abort flag observed true from checkpoint 1
on: for instance because `stopGeneration` was invoked for a different
session while this run awaited its expansion call. -/
def foreignStopEnv : RunEnv := { mixedEnv with cancelPoint := some 1 }

/-! ### Claims -/

/-- C1, counterexample: the claim "the number of images appended by one
run never exceeds `totalTarget`" is false on the code.  With
`totalTarget = 1`, an expansion response carrying two prompts is adopted
unchecked (the source validates only `Array.isArray`), the loop runs over
both prompts, and the run appends two images. -/
theorem c1_counterexample :
    sampleSession.totalTarget = 1 ∧
    sampleSession.totalTarget <
      (startGeneration sampleSession overlongEnv).generatedImages.length := by
  exact ⟨rfl, by decide⟩

/-- C1, amended: at every point during and after a run, the number of
images the run has appended never exceeds the length of the adopted
prompt list; in particular it never exceeds `totalTarget` whenever the
adopted prompt list is no longer than `totalTarget` (which holds for the
fallback prompts and for any expansion response with at most
`totalTarget` prompts — the code does not itself enforce this bound). -/
theorem c1_amended (s : Session) (env : RunEnv)
    (h : (adoptedPrompts s env).length ≤ s.totalTarget) :
    ∀ t ∈ startGenerationTrace s env,
      t.generatedImages.length ≤ s.generatedImages.length + s.totalTarget := by
  intro t ht
  unfold startGenerationTrace at ht
  cases hc : cancelledAt env 0 with
  | true =>
    rw [hc] at ht
    simp only [if_true] at ht
    rw [preTrace_mem_images s env t ht]
    omega
  | false =>
    rw [hc] at ht
    simp only [Bool.false_eq_true, if_false] at ht
    rcases List.mem_append.mp ht with h123 | h4
    · rcases List.mem_append.mp h123 with h12 | h3
      · rcases List.mem_append.mp h12 with h1 | h2
        · rw [preTrace_mem_images s env t h1]; omega
        · rw [adoptTrace_mem_images s env t h2]; omega
      · have hb := generationLoopTrace_mem_images_le env s.id
          (adoptedPrompts s env).length (List.enumFrom 0 (adoptedPrompts s env))
          (adoptedState s env) t h3
        rw [adoptedState_images, List.enumFrom_length] at hb
        omega
    · obtain ⟨himgs, _⟩ := postTrace_mem env _ _ t h4
      rw [himgs]
      rcases getLastD_cases (generationLoopTrace env s.id (adoptedPrompts s env).length
          (List.enumFrom 0 (adoptedPrompts s env)) (adoptedState s env))
          (adoptedState s env) with hL | hL
      · rw [hL, adoptedState_images]; omega
      · have hb := generationLoopTrace_mem_images_le env s.id
          (adoptedPrompts s env).length (List.enumFrom 0 (adoptedPrompts s env))
          (adoptedState s env) _ hL
        rw [adoptedState_images, List.enumFrom_length] at hb
        omega

/-- Witness for the amended C1 at a concrete fresh session and oracle. -/
theorem c1_amended_witness :
    (adoptedPrompts twoTargetSession mixedEnv).length ≤ twoTargetSession.totalTarget ∧
    ((startGenerationTrace twoTargetSession mixedEnv).headI).generatedImages.length ≤
      twoTargetSession.generatedImages.length + twoTargetSession.totalTarget :=
  ⟨by decide, c1_amended twoTargetSession mixedEnv (by decide)
    ((startGenerationTrace twoTargetSession mixedEnv).headI) (by decide)⟩

/-- C2: a per-item synthesis failure at item `k` is logged with the
1-based index and the error message, produces no image entry and no gap
(the final image list is exactly the successes in item order), does not
abort the loop (every item of the adopted list is attempted and logged),
and when the loop exhausts without cancellation the session transitions
to `completed` — even if every item failed, since `env.synth` is
arbitrary here. -/
theorem c2_per_item_failure (s : Session) (env : RunEnv) (k : Nat) (e : String)
    (hnc : env.cancelPoint = none)
    (hk : k < (adoptedPrompts s env).length)
    (he : env.synth k = Except.error e) :
    (startGeneration s env).status = Status.completed ∧
    (startGeneration s env).generatedImages =
      s.generatedImages ++ runImages env s.id (List.enumFrom 0 (adoptedPrompts s env)) ∧
    HasLog (startGeneration s env) (itemErrMsg k e) ∧
    (∀ j, j < (adoptedPrompts s env).length →
      HasLog (startGeneration s env) (itemStartMsg j (adoptedPrompts s env).length)) := by
  refine ⟨?_, startGeneration_images s env, ?_, ?_⟩
  · rw [startGeneration_nocancel s env hnc]
    simp
  · rw [startGeneration_nocancel s env hnc]
    have hloop := generationLoop_hasLog_err env s.id (adoptedPrompts s env).length hnc
      (adoptedPrompts s env) 0 (adoptedState s env) k e he (Nat.zero_le k)
      (by simpa using hk)
    exact hloop.mono (logs_prefix_addLog env _ completedMsg)
  · intro j hj
    rw [startGeneration_nocancel s env hnc]
    have hloop := generationLoop_hasLog_start env s.id (adoptedPrompts s env).length hnc
      (adoptedPrompts s env) 0 (adoptedState s env) j (Nat.zero_le j)
      (by simpa using hj)
    exact hloop.mono (logs_prefix_addLog env _ completedMsg)

/-- Witness for C2: target 2, second synthesis call fails, run completes. -/
theorem c2_witness :
    mixedEnv.cancelPoint = none ∧
    1 < (adoptedPrompts twoTargetSession mixedEnv).length ∧
    mixedEnv.synth 1 = Except.error "boom" ∧
    (startGeneration twoTargetSession mixedEnv).status = Status.completed :=
  ⟨rfl, by decide, rfl,
    (c2_per_item_failure twoTargetSession mixedEnv 1 "boom" rfl (by decide) rfl).1⟩

/-- C3: when the expansion call fails with any error `e`, the run adopts
exactly `totalTarget` verbatim copies of the base prompt and the fixed
default aspect ratio `"16:9"`, logs the fallback warning carrying the
underlying error message, and the session never transitions to `failed`
because of it. -/
theorem c3_expansion_fallback (s : Session) (env : RunEnv) (e : String)
    (he : env.expansion = Except.error e) :
    adoptedPrompts s env = List.replicate s.totalTarget s.basePrompt ∧
    adoptedRatio env = "16:9" ∧
    HasLog (startGeneration s env) (fallbackMsg e) ∧
    (startGeneration s env).status ≠ Status.failed := by
  refine ⟨by simp [adoptedPrompts, he], by simp [adoptedRatio, he], ?_,
    startGeneration_status_ne_failed s env⟩
  have hstep : expandedState s env =
      addLog env
        (addLog env
          (addLog env { s with status := Status.generating, progress := 5, logs := [] }
            (startMsg s.totalTarget))
          synthesizingMsg)
        (fallbackMsg e) := by
    simp [expandedState, preTrace, he]
  have h1 : HasLog (expandedState s env) (fallbackMsg e) := by
    rw [hstep]
    exact hasLog_addLog_self env _ _
  exact h1.mono (startGeneration_logs_extends s env)

/-- Witness for C3 at a concrete failed expansion. -/
theorem c3_witness :
    failExpandEnv.expansion = Except.error "network down" ∧
    adoptedPrompts sampleSession failExpandEnv =
      List.replicate sampleSession.totalTarget sampleSession.basePrompt ∧
    (startGeneration sampleSession failExpandEnv).status ≠ Status.failed :=
  ⟨rfl, (c3_expansion_fallback sampleSession failExpandEnv "network down" rfl).1,
    (c3_expansion_fallback sampleSession failExpandEnv "network down" rfl).2.2.2⟩

/-- C4, counterexample: the claim's progress bounds are false on the
code.  With target 1 and an unchecked two-prompt expansion result, the
trace reaches progress `15 + floor(2 * 85 / 1) = 185 > 100` after the
second success, and completion then resets progress to 100 — so progress
both exceeds 100 and decreases within one run. -/
theorem c4_counterexample :
    ((startGenerationTrace sampleSession overlongEnv).map Session.progress) =
      [5, 5, 5, 15, 15, 15, 15, 100, 100, 185, 100, 100] ∧
    ((startGenerationTrace sampleSession overlongEnv).any
        (fun t => decide (100 < t.progress))) = true ∧
    ¬ List.Chain' (fun a b => a.progress ≤ b.progress)
        (startGenerationTrace sampleSession overlongEnv) := by
  have hmap : ((startGenerationTrace sampleSession overlongEnv).map Session.progress) =
      [5, 5, 5, 15, 15, 15, 15, 100, 100, 185, 100, 100] := by decide
  refine ⟨hmap, by decide, ?_⟩
  intro hchain
  have h2 : List.Chain' (fun a b : Nat => a ≤ b)
      ((startGenerationTrace sampleSession overlongEnv).map Session.progress) :=
    (List.chain'_map Session.progress).mpr hchain
  rw [hmap] at h2
  simp [List.chain'_cons] at h2

/-- C4, amended: for a fresh session (`generatedImages = []`, target at
least 1) whose adopted prompt list is within the target — the code does
not itself enforce that bound — progress is seeded at 5, is 15 at prompt
adoption, equals `15 + floor(85 * imagesCompleted / totalTarget)` at
every state of the loop (and otherwise is 5 or 100), is monotonically
non-decreasing along the whole trace, stays at most 100, and equals 100
at every state whose status is `completed`. -/
theorem c4_amended (s : Session) (env : RunEnv)
    (himg : s.generatedImages = [])
    (hn : 0 < s.totalTarget)
    (hlen : (adoptedPrompts s env).length ≤ s.totalTarget) :
    ((startGenerationTrace s env).headI).progress = 5 ∧
    (adoptedState s env).progress = 15 ∧
    List.Chain' (fun a b => a.progress ≤ b.progress) (startGenerationTrace s env) ∧
    (∀ t ∈ startGenerationTrace s env, t.progress ≤ 100) ∧
    (∀ t ∈ startGenerationTrace s env, t.status = Status.completed → t.progress = 100) ∧
    (∀ t ∈ startGenerationTrace s env,
        t.progress = 5 ∨ t.progress = 100 ∨
        t.progress = 15 + t.generatedImages.length * 85 / s.totalTarget) := by
  have hsplit : ∀ t ∈ startGenerationTrace s env,
      t ∈ preTrace s env ∨ t ∈ adoptTrace s env ∨
      t ∈ generationLoopTrace env s.id (adoptedPrompts s env).length
          (List.enumFrom 0 (adoptedPrompts s env)) (adoptedState s env) ∨
      t ∈ postTrace env (adoptedPrompts s env).length
          ((generationLoopTrace env s.id (adoptedPrompts s env).length
            (List.enumFrom 0 (adoptedPrompts s env)) (adoptedState s env)).getLastD
            (adoptedState s env)) := by
    intro t ht
    unfold startGenerationTrace at ht
    cases hc : cancelledAt env 0 with
    | true =>
      rw [hc] at ht
      simp only [if_true] at ht
      exact Or.inl ht
    | false =>
      rw [hc] at ht
      simp only [Bool.false_eq_true, if_false] at ht
      rcases List.mem_append.mp ht with h123 | h4
      · rcases List.mem_append.mp h123 with h12 | h3
        · rcases List.mem_append.mp h12 with h1 | h2
          · exact Or.inl h1
          · exact Or.inr (Or.inl h2)
        · exact Or.inr (Or.inr (Or.inl h3))
      · exact Or.inr (Or.inr (Or.inr h4))
  refine ⟨by rw [startGenerationTrace_headI], adoptedState_progress s env,
    startGenerationTrace_chain_progress s env himg hn hlen, ?_, ?_, ?_⟩
  · intro t ht
    rcases hsplit t ht with h | h | h | h
    · rw [preTrace_mem_progress s env t h]; omega
    · rw [adoptTrace_mem_progress s env t h]; omega
    · exact ((runLoopTrace_facts s env himg hn hlen).1 t h).2
    · obtain ⟨_, hst⟩ := postTrace_mem env _ _ t h
      rcases hst with ⟨_, hp⟩ | ⟨_, hp⟩
      · rw [hp]
        exact (loopLast_progress s env himg hn hlen).2
      · rw [hp]
  · intro t ht hstatus
    rcases hsplit t ht with h | h | h | h
    · rw [preTrace_mem_status s env t h] at hstatus
      exact Status.noConfusion hstatus
    · rw [adoptTrace_mem_status s env t h] at hstatus
      exact Status.noConfusion hstatus
    · rw [generationLoopTrace_mem_status env s.id _ _ (adoptedState s env) t h,
        adoptedState_status] at hstatus
      exact Status.noConfusion hstatus
    · obtain ⟨_, hst⟩ := postTrace_mem env _ _ t h
      rcases hst with ⟨hq, _⟩ | ⟨_, hp⟩
      · rw [hq] at hstatus
        exact Status.noConfusion hstatus
      · exact hp
  · intro t ht
    rcases hsplit t ht with h | h | h | h
    · exact Or.inl (preTrace_mem_progress s env t h)
    · right; right
      rw [adoptTrace_mem_progress s env t h, adoptTrace_mem_images s env t h, himg]
      simp
    · exact Or.inr (Or.inr ((runLoopTrace_facts s env himg hn hlen).1 t h).1)
    · obtain ⟨himgs, hst⟩ := postTrace_mem env _ _ t h
      rcases hst with ⟨_, hp⟩ | ⟨_, hp⟩
      · right; right
        rw [hp, himgs]
        exact (loopLast_progress s env himg hn hlen).1
      · exact Or.inr (Or.inl hp)

/-- Witness for the amended C4 at a concrete fresh session and oracle. -/
theorem c4_amended_witness :
    twoTargetSession.generatedImages = [] ∧
    0 < twoTargetSession.totalTarget ∧
    (adoptedPrompts twoTargetSession mixedEnv).length ≤ twoTargetSession.totalTarget ∧
    ((startGenerationTrace twoTargetSession mixedEnv).headI).progress = 5 ∧
    List.Chain' (fun a b => a.progress ≤ b.progress)
      (startGenerationTrace twoTargetSession mixedEnv) :=
  ⟨rfl, by decide, by decide,
    (c4_amended twoTargetSession mixedEnv rfl (by decide) (by decide)).1,
    (c4_amended twoTargetSession mixedEnv rfl (by decide) (by decide)).2.2.1⟩

/-- C5: once a stop request sets the abort flag (first observed at
checkpoint `p`), the session reaches `stopped`; the images accumulated
before cancellation are preserved exactly (the final list is the initial
images plus the successes of the items that ran); and a synthesis call is
started only for items whose checkpoint preceded the observation — so at
most the one call in flight at the stop completes afterwards, and no
further item is started. -/
theorem c5_cancellation (s : Session) (env : RunEnv) (p : Nat)
    (hc : env.cancelPoint = some p) :
    (sessionFinal s env).status = Status.stopped ∧
    (sessionFinal s env).generatedImages =
      s.generatedImages ++ runImages env s.id (List.enumFrom 0 (adoptedPrompts s env)) ∧
    (∀ j ∈ runCalls env (List.enumFrom 0 (adoptedPrompts s env)), j + 1 < p) := by
  refine ⟨?_, ?_, ?_⟩
  · simp [sessionFinal, hc, stopGeneration]
  · simp only [sessionFinal, hc, stopGeneration, addLog_generatedImages]
    exact startGeneration_images s env
  · intro j hj
    have hfalse := runCalls_not_cancelled env _ j hj
    rw [cancelledAt, hc] at hfalse
    simp at hfalse
    omega

/-- Witness for C5: a stop observed at checkpoint 2 stops the run after
item 0 only. -/
theorem c5_witness :
    cancelledEnv.cancelPoint = some 2 ∧
    (sessionFinal twoTargetSession cancelledEnv).status = Status.stopped ∧
    runCalls cancelledEnv (List.enumFrom 0 (adoptedPrompts twoTargetSession cancelledEnv))
      = [0] :=
  ⟨rfl, (c5_cancellation twoTargetSession cancelledEnv 2 rfl).1, by decide⟩

/-- C6: interference through the shared abort flag.  `stopGeneration`
writes the single component-level `abortControllerRef` irrespective of
which session it is invoked for (App.tsx lines 48 and 146), and a run's
outcome depends on that flag's trajectory: the same session, with the
same expansion and synthesis outcomes, completes when the flag stays
false and is stopped when the flag is set — e.g. by a stop issued for a
different concurrently running session.  (`startGeneration` also resets
the same flag for all sessions, App.tsx line 155.) -/
theorem c6_shared_flag_interference :
    stopFlagWrite "session-B" = stopFlagWrite "session-A" ∧
    foreignStopEnv.expansion = mixedEnv.expansion ∧
    foreignStopEnv.synth = mixedEnv.synth ∧
    (startGeneration twoTargetSession mixedEnv).status = Status.completed ∧
    (startGeneration twoTargetSession foreignStopEnv).status = Status.stopped := by
  refine ⟨rfl, rfl, rfl, ?_, ?_⟩ <;> decide

/-! ### Claim C7: JSON extraction -/

/-- The response text of the specification's JSON-extraction example. -/
def exampleResponseText : String :=
  "Here you go: \x7b\"prompts\":[\"a\",\"b\"],\"aspectRatio\":\"16:9\"\x7d"

/-- A well-formed prompts object. -/
def promptsObjectText : String :=
  "\x7b\"prompts\": [\"a\"], \"aspectRatio\": \"16:9\"\x7d"

/-- The same object followed by prose containing a stray closing brace. -/
def strayBraceText : String := promptsObjectText ++ " \x7d"

/-- C7, counterexample: extraction is not "the first well-formed JSON
object or array substring".  The regex takes the span from the first
opening brace to the last closing brace of the whole text: on a response
consisting of a well-formed prompts object followed by a stray `\x7d`, the
extracted span is the whole unparseable text and the call fails, whereas
extracting the first well-formed object substring would succeed with
prompts `["a"]`. -/
theorem c7_counterexample :
    extractJson strayBraceText = promptsObjectText ++ " \x7d" ∧
    parseJson (extractJson strayBraceText) = none ∧
    (∃ fs, parseJson promptsObjectText = some (Json.obj fs) ∧
      getField (Json.obj fs) "prompts" = some (Json.arr [Json.str "a"])) ∧
    generateDiversePromptsFromResponse strayBraceText =
      Except.error "JSON parse error" := by
  refine ⟨rfl, rfl,
    ⟨[("prompts", Json.arr [Json.str "a"]), ("aspectRatio", Json.str "16:9")],
      rfl, rfl⟩, rfl⟩

/-- C7, amended: expansion extracts the span from the first opening brace
(with a later closing brace) to the last closing brace — which equals the
first well-formed JSON substring for responses wrapping a single object
in prose, as in the specification's example, where it yields prompts
`["a","b"]` and aspect ratio `"16:9"`.  Whenever the call succeeds, the
extracted span parsed as a JSON object whose `prompts` field is an array
(element types and `aspectRatio` are not validated); otherwise the call
fails with a typed error. -/
theorem c7_amended :
    generateDiversePromptsFromResponse exampleResponseText =
      Except.ok ([Json.str "a", Json.str "b"], some (Json.str "16:9")) ∧
    (∀ text xs ar, generateDiversePromptsFromResponse text = Except.ok (xs, ar) →
      ∃ j, parseJson (extractJson text) = some j ∧
        getField j "prompts" = some (Json.arr xs) ∧
        getField j "aspectRatio" = ar) := by
  constructor
  · rfl
  · intro text xs ar h
    unfold generateDiversePromptsFromResponse at h
    by_cases ht : text = ""
    · simp [ht] at h
    · simp only [ht, if_false] at h
      cases hp : parseJson (extractJson text) with
      | none =>
        rw [hp] at h
        exact Except.noConfusion h
      | some j =>
        simp only [hp] at h
        refine ⟨j, rfl, ?_⟩
        cases hf : getField j "prompts" with
        | none =>
          simp only [hf] at h
          exact Except.noConfusion h
        | some v =>
          cases v with
          | arr ys =>
            simp only [hf, Except.ok.injEq, Prod.mk.injEq] at h
            obtain ⟨h1, h2⟩ := h
            exact ⟨by rw [h1], h2⟩
          | null =>
            simp only [hf] at h
            exact Except.noConfusion h
          | bool b =>
            simp only [hf] at h
            exact Except.noConfusion h
          | num n =>
            simp only [hf] at h
            exact Except.noConfusion h
          | str st =>
            simp only [hf] at h
            exact Except.noConfusion h
          | obj fs =>
            simp only [hf] at h
            exact Except.noConfusion h

/-- Witness for the amended C7 at the specification's example text. -/
theorem c7_amended_witness :
    ∃ j, parseJson (extractJson exampleResponseText) = some j ∧
      getField j "prompts" = some (Json.arr [Json.str "a", Json.str "b"]) ∧
      getField j "aspectRatio" = some (Json.str "16:9") :=
  c7_amended.2 exampleResponseText [Json.str "a", Json.str "b"]
    (some (Json.str "16:9")) (by rfl)

/-! ### Claims C8 and C9: OpenAI-compatible synthesizer -/

/-- An OpenAI-compatible configuration missing its API key. -/
def keylessConfig : ModelConfig :=
  { id := "m1", name := "Custom", type := ModelType.OPENAI_COMPATIBLE
  , endpoint := some "https://api.example.com", apiKey := none
  , modelId := "dall-e-3" }

/-- A fully populated OpenAI-compatible configuration. -/
def fullConfig : ModelConfig := { keylessConfig with apiKey := some "sk-test" }

/-- C8: a configuration with a missing endpoint or a missing API key
makes the synthesizer throw its configuration error before any network
call — the `Except.error` result means the single outbound request of
`generateImageCustomRequest` is never built, so zero requests are
issued. -/
theorem c8_missing_credentials (config : ModelConfig) (prompt aspectRatio : String)
    (h : config.endpoint = none ∨ config.apiKey = none) :
    generateImageCustomRequest config prompt aspectRatio =
      Except.error "Missing endpoint or API key for custom model" := by
  rcases h with h | h <;> simp [generateImageCustomRequest, optStringFalsy, h]

/-- Witness for C8 at a concrete key-less configuration. -/
theorem c8_witness :
    (keylessConfig.endpoint = none ∨ keylessConfig.apiKey = none) ∧
    generateImageCustomRequest keylessConfig "a prompt" "16:9" =
      Except.error "Missing endpoint or API key for custom model" :=
  ⟨Or.inr rfl, c8_missing_credentials keylessConfig "a prompt" "16:9" (Or.inr rfl)⟩

/-- C9: every request issued by the OpenAI-compatible synthesizer carries
exactly the size determined by the aspect ratio: `1792x1024` for
`"16:9"`, `1024x1792` for `"9:16"`, and `1024x1024` for every other
ratio. -/
theorem c9_size_mapping (config : ModelConfig) (prompt aspectRatio : String)
    (r : ImagesRequest)
    (h : generateImageCustomRequest config prompt aspectRatio = Except.ok r) :
    r.size = sizeForAspectRatio aspectRatio ∧
    sizeForAspectRatio "16:9" = "1792x1024" ∧
    sizeForAspectRatio "9:16" = "1024x1792" ∧
    (aspectRatio ≠ "16:9" → aspectRatio ≠ "9:16" → r.size = "1024x1024") := by
  have hr : r.size = sizeForAspectRatio aspectRatio := by
    unfold generateImageCustomRequest at h
    by_cases hb : (optStringFalsy config.endpoint || optStringFalsy config.apiKey) = true
    · rw [if_pos hb] at h
      exact Except.noConfusion h
    · rw [if_neg hb] at h
      cases h
      rfl
  refine ⟨hr, by rfl, by rfl, fun h1 h2 => ?_⟩
  rw [hr]
  simp [sizeForAspectRatio, h1, h2]

/-- Witness for C9: a populated configuration with ratio `"9:16"` issues
size `1024x1792`. -/
theorem c9_witness :
    ∃ r, generateImageCustomRequest fullConfig "a prompt" "9:16" = Except.ok r ∧
      r.size = sizeForAspectRatio "9:16" ∧ r.size = "1024x1792" :=
  ⟨_, rfl, (c9_size_mapping fullConfig "a prompt" "9:16" _ rfl).1, rfl⟩

/-! ### Claim C10: log append-only -/

/-- C10, counterexample: the start transition is not append-only over the
session's whole lifetime.  A freshly created session carries the
`Session initialized` log entry, and the first write of the run replaces
the log list with `[]` (App.tsx line 156), removing that entry. -/
theorem c10_counterexample :
    "Session initialized. Waiting to start..." ∈ sampleSession.logs ∧
    ((startGenerationTrace sampleSession overlongEnv).headI).logs = [] := by
  exact ⟨by decide, by rw [startGenerationTrace_headI]⟩

/-- C10, amended: the start command clears the log (so append-only does
not hold across the start transition), and from that reset on the log is
append-only for the rest of the run: along the whole trace each state's
log list is a prefix of every later state's log list (stated for
adjacent states; prefix is transitive). -/
theorem c10_amended (s : Session) (env : RunEnv) :
    ((startGenerationTrace s env).headI).logs = [] ∧
    List.Chain' (fun a b => a.logs <+: b.logs) (startGenerationTrace s env) := by
  exact ⟨by rw [startGenerationTrace_headI], startGenerationTrace_chain_logs s env⟩

end SynthVision
